import Mathlib

/-!
Shallow embedding of the credential-pool and streaming-client core of the
gemini-balance gateway, and proofs checking the specification's claims
against it.

Pool side (src/app/services/key_manager.py): the database table of
credential records is modelled as a `List APIKey` in insertion order, and
the process-local rotation cursor as a `Nat`.  Each `KeyManager` method
becomes a state-passing function `PoolState → Except PoolErr α × PoolState`
(errors leave behind the mutations already committed, as in the source,
where a raise does not undo earlier commits).

Client side (src/app/services/chat/api_client.py): the streaming call is
modelled as a trace of observable events (yielded lines and backoff
sleeps) produced from an abstract per-attempt outcome function.
-/

namespace GeminiBalance

/-- Credential record, from the `api_keys` table model
(src/app/models/api_key.py): `key` is the unique secret string, `status`
defaults to true (enabled), `failure_count` defaults to 0.  The `id` and
timestamp columns are informational only and are not modelled. -/
structure APIKey where
  key : String
  status : Bool := true
  failure_count : Nat := 0
deriving Repr, DecidableEq

/-- State a `KeyManager` instance operates on: the store's record list plus
the process-local `_current_key_index` rotation cursor (initialised to 0 in
`KeyManager.__init__`). -/
structure PoolState where
  keys : List APIKey
  current_key_index : Nat := 0
deriving Repr, DecidableEq

/-- Errors a pool operation can raise.  `noValidKeys` is the
`Exception("No valid API keys available")` raised by `get_next_key` and by
the exhausted scan in `get_next_working_key`; `storeError` stands for any
persistence-layer exception raised by a store round trip. -/
inductive PoolErr where
  | noValidKeys
  | storeError
deriving Repr, DecidableEq

/-- The row filter of `get_next_key`, line 41 of key_manager.py:
`select(APIKey).where(APIKey.status is True)`.  In Python, `is` cannot be
overloaded: `APIKey.status` is a SQLAlchemy column object, so
`APIKey.status is True` is an identity comparison between that object and
the `True` singleton and evaluates to the plain boolean `False`.  The query
therefore carries a constant-false WHERE clause and returns no rows,
whatever the table holds.  This definition records exactly that predicate. -/
def whereStatusIsTrue (_record : APIKey) : Bool := false

/-- The filter `get_next_key` evidently intends (`APIKey.status == True`):
select the records whose `status` column is true.  Kept alongside
`whereStatusIsTrue` to state what the code would do without the slip. -/
def whereStatusEqTrue (record : APIKey) : Bool := record.status

/-- KeyManager.get_next_key: under `key_cycle_lock`, select the rows
matching the `status is True` filter; raise if none; otherwise advance
`_current_key_index` by one modulo the number of selected rows and return
the key at the new index. -/
def get_next_key (s : PoolState) : Except PoolErr String × PoolState :=
  let valid_keys := s.keys.filter whereStatusIsTrue
  if h : valid_keys.length = 0 then
    (.error .noValidKeys, s)
  else
    let idx := (s.current_key_index + 1) % valid_keys.length
    ((Except.ok (valid_keys.get ⟨idx, Nat.mod_lt _ (Nat.pos_of_ne_zero h)⟩).key),
      { s with current_key_index := idx })

/-- What `get_next_key` would be with the intended `status == True` filter:
identical in every other respect.  Used only to document the divergence
between the code and the spec, never as the code's semantics. -/
def get_next_key_intent (s : PoolState) : Except PoolErr String × PoolState :=
  let valid_keys := s.keys.filter whereStatusEqTrue
  if h : valid_keys.length = 0 then
    (.error .noValidKeys, s)
  else
    let idx := (s.current_key_index + 1) % valid_keys.length
    ((Except.ok (valid_keys.get ⟨idx, Nat.mod_lt _ (Nat.pos_of_ne_zero h)⟩).key),
      { s with current_key_index := idx })

/-- Because the row filter of `get_next_key` is constant false, the
selected list is empty on every state and the call always raises, leaving
the state untouched. -/
theorem get_next_key_always_errors (s : PoolState) :
    get_next_key s = (.error .noValidKeys, s) := by
  unfold get_next_key
  have h : s.keys.filter whereStatusIsTrue = [] := by
    simp [whereStatusIsTrue]
  simp [h]

/-- KeyManager.is_key_valid: look up the record with this key
(`scalar_one_or_none`); true iff a record exists, its `status` is true and
its `failure_count` is below `MAX_FAILURES` (the source returns the truthy
chain `key_record and key_record.status and failure_count < MAX_FAILURES`,
which is falsy exactly when this is false). -/
def is_key_valid (MAXF : Nat) (s : PoolState) (key : String) : Bool :=
  match s.keys.find? (fun r => r.key == key) with
  | none => false
  | some r => r.status && decide (r.failure_count < MAXF)

/-- The record-update section of KeyManager.handle_api_failure (under
`failure_count_lock`): if a record with this key exists, increment its
`failure_count`; if the updated count has reached `MAX_FAILURES`, set
`status` to false in the same commit.  A missing key is logged and left a
no-op. -/
def handle_failure_update (MAXF : Nat) (s : PoolState) (api_key : String) :
    PoolState :=
  { s with
    keys := s.keys.map fun r =>
      if r.key == api_key then
        let fc := r.failure_count + 1
        { r with failure_count := fc, status := if MAXF ≤ fc then false else r.status }
      else r }

/-- KeyManager.reset_failure_counts: one bulk UPDATE setting every record's
`failure_count` to 0 and `status` to true. -/
def reset_failure_counts (s : PoolState) : PoolState :=
  { s with keys := s.keys.map fun r => { r with failure_count := 0, status := true } }

/-- The `while True` scan of KeyManager.get_next_working_key: return
`current` if it is valid; otherwise draw the next key, raise if it was
already tried, else record it and loop.  The loop is written with explicit
fuel; the visited set `tried` grows by one fresh key per iteration and is
drawn from the finite filtered list, so `s.keys.length + 1` fuel (supplied
by the caller) is never exhausted before the source loop would raise. -/
def gnwk_loop (MAXF : Nat) : Nat → List String → String → PoolState →
    Except PoolErr String × PoolState
  | 0, _, _, s => (.error .noValidKeys, s)
  | fuel + 1, tried, current, s =>
    if is_key_valid MAXF s current then
      (.ok current, s)
    else
      match get_next_key s with
      | (.error e, s1) => (.error e, s1)
      | (.ok next, s1) =>
        if next ∈ tried then
          (.error .noValidKeys, s1)
        else
          gnwk_loop MAXF fuel (next :: tried) next s1

/-- KeyManager.get_next_working_key: try `get_next_key` then the visited-set
scan; on any exception from that `try` block, call `reset_failure_counts`,
then return the result of one further `get_next_key` call with no validity
check.  State mutations made before the exception persist (the source's
raise undoes nothing already committed). -/
def get_next_working_key (MAXF : Nat) (s : PoolState) :
    Except PoolErr String × PoolState :=
  let attempt : Except PoolErr String × PoolState :=
    match get_next_key s with
    | (.error e, s1) => (.error e, s1)
    | (.ok initial_key, s1) =>
        gnwk_loop MAXF (s1.keys.length + 1) [initial_key] initial_key s1
  match attempt with
  | (.ok k, s1) => (.ok k, s1)
  | (.error _, s1) =>
      let s2 := reset_failure_counts s1
      get_next_key s2

/-- KeyManager.handle_api_failure: the record update under
`failure_count_lock`, then (outside the lock) `get_next_working_key`, whose
result — value or exception — is the call's result. -/
def handle_api_failure (MAXF : Nat) (s : PoolState) (api_key : String) :
    Except PoolErr String × PoolState :=
  get_next_working_key MAXF (handle_failure_update MAXF s api_key)

/-- KeyManager.get_keys_by_status: read all records and partition them by
the `status` flag (not by the failure threshold), mapping key to
failure_count on each side. -/
def get_keys_by_status (s : PoolState) : List (String × Nat) × List (String × Nat) :=
  ((s.keys.filter (fun r => r.status)).map fun r => (r.key, r.failure_count),
   (s.keys.filter (fun r => !r.status)).map fun r => (r.key, r.failure_count))

/-- One iteration of the seeding loop in KeyManager.initialize_keys: SELECT
by key, and add a fresh record (defaults: enabled, zero failures) only when
none exists.  The session's autoflush makes rows added earlier in the same
loop visible to the SELECT, so a value already appended is not appended
again. -/
def insKey (ks : List APIKey) (key : String) : List APIKey :=
  if ks.any (fun r => r.key == key) then ks else ks ++ [{ key := key }]

/-- The seeding loop of KeyManager.initialize_keys over a whole list. -/
def seedKeys (ks : List APIKey) (api_keys : List String) : List APIKey :=
  api_keys.foldl insKey ks

/-- Outcome of the single commit at the end of initialize_keys. -/
inductive CommitOutcome where
  | ok
  | duplicateEntry
  | otherError
deriving Repr, DecidableEq

/-- KeyManager.initialize_keys: run the seeding loop, then commit.  On an
exception the session is rolled back; if the message contains
"Duplicate entry" (a uniqueness conflict) the error is swallowed and the
call returns normally, otherwise it is re-raised. -/
def initialize_keys (s : PoolState) (api_keys : List String)
    (commit : CommitOutcome) : Except PoolErr PoolState :=
  match commit with
  | .ok => .ok { s with keys := seedKeys s.keys api_keys }
  | .duplicateEntry => .ok s
  | .otherError => .error .storeError

/-- KeyManager.get_paid_key: when `settings.PAID_KEY` is non-empty, make
sure a record for it exists (adding one with default fields if absent) and
return the configured value itself, with no status or failure-count check;
when it is empty, fall back to `get_next_working_key`. -/
def get_paid_key (MAXF : Nat) (paid_key : String) (s : PoolState) :
    Except PoolErr String × PoolState :=
  if paid_key ≠ "" then
    let s1 :=
      if s.keys.any (fun r => r.key == paid_key) then s
      else { s with keys := s.keys ++ [{ key := paid_key }] }
    (.ok paid_key, s1)
  else
    get_next_working_key MAXF s

/-! Error-injecting variants of the pool operations, for checking the
error-propagation claim.  The store is fallible: a schedule of booleans
says, for each store round trip in order, whether that round trip raises a
persistence error (an exhausted schedule means no further injected
errors).  Each operation mirrors its pure counterpart exactly, consuming
one schedule entry per store round trip. -/

/-- Schedule of injected store errors, one entry per store round trip. -/
abbrev ErrSched := List Bool

/-- Consume one schedule entry: whether this store round trip raises, and
the remaining schedule. -/
def takeStep : ErrSched → Bool × ErrSched
  | [] => (false, [])
  | b :: rest => (b, rest)

/-- KeyManager.get_next_key against the fallible store: the SELECT is one
store round trip; if it raises, the exception propagates (there is no
handler in the source) and the state is untouched. -/
def get_next_keyE (sched : ErrSched) (s : PoolState) :
    Except PoolErr String × PoolState × ErrSched :=
  let step := takeStep sched
  if step.1 then
    (.error .storeError, s, step.2)
  else
    let r := get_next_key s
    (r.1, r.2, step.2)

/-- KeyManager.is_key_valid against the fallible store: the SELECT is one
store round trip; an injected error propagates uncaught from this
function. -/
def is_key_validE (MAXF : Nat) (sched : ErrSched) (s : PoolState)
    (key : String) : Except PoolErr Bool × ErrSched :=
  let step := takeStep sched
  if step.1 then
    (.error .storeError, step.2)
  else
    (.ok (is_key_valid MAXF s key), step.2)

/-- KeyManager.reset_failure_counts against the fallible store: the bulk
UPDATE plus commit is one store round trip; on an exception the source
logs it and re-raises, so the error propagates with the state unchanged. -/
def reset_failure_countsE (sched : ErrSched) (s : PoolState) :
    Except PoolErr Unit × PoolState × ErrSched :=
  let step := takeStep sched
  if step.1 then
    (.error .storeError, s, step.2)
  else
    (.ok (), reset_failure_counts s, step.2)

/-- The scan loop of get_next_working_key against the fallible store.  Any
exception raised by `is_key_valid` or `get_next_key` leaves the loop; the
caller's `except Exception` decides what happens next. -/
def gnwk_loopE (MAXF : Nat) :
    Nat → List String → String → ErrSched → PoolState →
      Except PoolErr String × PoolState × ErrSched
  | 0, _, _, sched, s => (.error .noValidKeys, s, sched)
  | fuel + 1, tried, current, sched, s =>
    match is_key_validE MAXF sched s current with
    | (.error e, sc1) => (.error e, s, sc1)
    | (.ok true, sc1) => (.ok current, s, sc1)
    | (.ok false, sc1) =>
      match get_next_keyE sc1 s with
      | (.error e, s1, sc2) => (.error e, s1, sc2)
      | (.ok next, s1, sc2) =>
        if next ∈ tried then
          (.error .noValidKeys, s1, sc2)
        else
          gnwk_loopE MAXF fuel (next :: tried) next sc2 s1

/-- KeyManager.get_next_working_key against the fallible store: the
`except Exception` clause catches every exception from the scan — the
injected store errors included — and responds with `reset_failure_counts`
(whose own error would propagate, as would one from the final
`get_next_key`). -/
def get_next_working_keyE (MAXF : Nat) (sched : ErrSched) (s : PoolState) :
    Except PoolErr String × PoolState × ErrSched :=
  let attempt : Except PoolErr String × PoolState × ErrSched :=
    match get_next_keyE sched s with
    | (.error e, s1, sc1) => (.error e, s1, sc1)
    | (.ok initial_key, s1, sc1) =>
        gnwk_loopE MAXF (s1.keys.length + 1) [initial_key] initial_key sc1 s1
  match attempt with
  | (.ok k, s1, sc1) => (.ok k, s1, sc1)
  | (.error _, s1, sc1) =>
    match reset_failure_countsE sc1 s1 with
    | (.error e, s2, sc2) => (.error e, s2, sc2)
    | (.ok _, s2, sc2) => get_next_keyE sc2 s2

/-! Streaming upstream client, GeminiApiClient.stream_generate_content
(src/app/services/chat/api_client.py, lines 55-89).  The network is
abstracted as one outcome per connection attempt: either the attempt
succeeds after yielding a finite list of SSE lines, or it raises an
exception (HTTP status error from `raise_for_status`, transport error, or
anything else) after having yielded some lines — zero lines when the
failure happens before the stream starts.  The call's observable behaviour
is the trace of yields and backoff sleeps, plus the final outcome. -/

/-- Exception raised by (or during) one connection attempt.  HTTP status
errors are raised by `raise_for_status` before any line is read, transport
errors (`httpx.RequestError`) and other exceptions can occur at any point
of the iteration. -/
inductive StreamErr where
  | httpStatus (code : Nat) (body : String)
  | requestError (msg : String)
  | otherError (msg : String)
deriving Repr, DecidableEq

/-- Outcome of one connection attempt: normal completion after yielding
`lines`, or an exception after yielding `linesBefore`. -/
inductive AttemptOutcome where
  | success (lines : List String)
  | fail (err : StreamErr) (linesBefore : List String)
deriving Repr, DecidableEq

/-- Observable event of a streaming call: a line handed to the caller, or
an `asyncio.sleep` of the given duration in seconds. -/
inductive Event where
  | yield (line : String)
  | sleep (seconds : ℚ)
deriving Repr, DecidableEq

/-- The `for attempt in range(self.max_retries)` loop of
stream_generate_content, with `remaining` the attempts the range still
holds.  On success the attempt's lines are yielded and the generator
returns.  On an exception the lines already yielded by that attempt stay
delivered; if `attempt == max_retries - 1` the exception is re-raised as
the terminal error, otherwise the generator sleeps
`retry_delay * 2 ** attempt` and retries.  If the range is exhausted
without entering the body the generator just ends. -/
def streamGo (maxRetries : Nat) (retryDelay : ℚ) (att : Nat → AttemptOutcome) :
    Nat → Nat → List Event × Except StreamErr Unit
  | _, 0 => ([], .ok ())
  | attempt, remaining + 1 =>
    match att attempt with
    | .success lines => (lines.map .yield, .ok ())
    | .fail err linesBefore =>
      if attempt = maxRetries - 1 then
        (linesBefore.map .yield, .error err)
      else
        let rest := streamGo maxRetries retryDelay att (attempt + 1) remaining
        (linesBefore.map .yield ++ .sleep (retryDelay * 2 ^ attempt) :: rest.1,
          rest.2)

/-- GeminiApiClient.stream_generate_content as a whole: the retry loop
started at attempt 0.  `maxRetries` and `retryDelay` are `self.max_retries`
(3) and `self.retry_delay` (1.0 second) from `__init__`. -/
def stream_generate_content (maxRetries : Nat) (retryDelay : ℚ)
    (att : Nat → AttemptOutcome) : List Event × Except StreamErr Unit :=
  streamGo maxRetries retryDelay att 0 maxRetries

/-- Default retry configuration from GeminiApiClient.__init__:
`self.max_retries = 3`. -/
def defaultMaxRetries : Nat := 3

/-- Default base delay from GeminiApiClient.__init__:
`self.retry_delay = 1.0` second (powers-of-two multiples of 1.0 are exact
in binary floating point, so ℚ models the source arithmetic faithfully). -/
def defaultRetryDelay : ℚ := 1

/-- A trace satisfies this when no sleep (that is, no backoff before a
reconnection attempt) occurs after any line has been yielded. -/
def noRetryAfterYield : List Event → Bool
  | [] => true
  | .sleep _ :: rest => noRetryAfterYield rest
  | .yield _ :: rest => rest.all fun e =>
      match e with
      | .sleep _ => false
      | .yield _ => true

/-! Helper lemmas about the seeding loop. -/

/-- A value is a key of `insKey ks k` iff it is a key of `ks` or is `k`. -/
theorem mem_keys_insKey (ks : List APIKey) (k v : String) :
    v ∈ (insKey ks k).map APIKey.key ↔ v ∈ ks.map APIKey.key ∨ v = k := by
  unfold insKey
  by_cases h : ks.any (fun r => r.key == k) = true
  · simp only [h, if_true]
    constructor
    · exact fun hv => Or.inl hv
    · rintro (hv | rfl)
      · exact hv
      · rcases List.any_eq_true.mp h with ⟨r, hr, hrk⟩
        exact List.mem_map.mpr ⟨r, hr, beq_iff_eq.mp hrk⟩
  · simp only [h, if_false, List.map_append, List.map_cons, List.map_nil]
    simp

/-- Seeding preserves and creates only enabled, zero-failure records when
starting from such records. -/
theorem insKey_fresh (ks : List APIKey) (k : String)
    (h : ∀ r ∈ ks, r.status = true ∧ r.failure_count = 0) :
    ∀ r ∈ insKey ks k, r.status = true ∧ r.failure_count = 0 := by
  unfold insKey
  by_cases hc : ks.any (fun r => r.key == k) = true
  · simpa [hc] using h
  · simp only [hc, if_false]
    intro r hr
    rcases List.mem_append.mp hr with hr | hr
    · exact h r hr
    · simp only [List.mem_singleton] at hr
      subst hr
      exact ⟨rfl, rfl⟩

/-- Key uniqueness is preserved by one seeding step. -/
theorem nodup_keys_insKey (ks : List APIKey) (k : String)
    (h : (ks.map APIKey.key).Nodup) : ((insKey ks k).map APIKey.key).Nodup := by
  unfold insKey
  by_cases hc : ks.any (fun r => r.key == k) = true
  · simpa [hc] using h
  · rw [if_neg hc]
    simp only [List.map_append, List.map_cons, List.map_nil]
    rw [List.nodup_append]
    refine ⟨h, List.nodup_singleton _, ?_⟩
    intro v hv hv1
    simp only [List.mem_singleton] at hv1
    subst hv1
    rcases List.mem_map.mp hv with ⟨r, hr, hrk⟩
    exact hc (List.any_eq_true.mpr ⟨r, hr, beq_iff_eq.mpr hrk⟩)

/-- Seeding a value already present is a no-op. -/
theorem insKey_of_mem (ks : List APIKey) (k : String)
    (h : k ∈ ks.map APIKey.key) : insKey ks k = ks := by
  unfold insKey
  rcases List.mem_map.mp h with ⟨r, hr, hrk⟩
  have : ks.any (fun r => r.key == k) = true :=
    List.any_eq_true.mpr ⟨r, hr, beq_iff_eq.mpr hrk⟩
  simp [this]

/-- Membership in the keys of a seeded list. -/
theorem mem_keys_seedKeys (l : List String) :
    ∀ (ks : List APIKey) (v : String),
      v ∈ (seedKeys ks l).map APIKey.key ↔ v ∈ ks.map APIKey.key ∨ v ∈ l := by
  induction l with
  | nil => intro ks v; simp [seedKeys]
  | cons k l ih =>
    intro ks v
    have hstep : seedKeys ks (k :: l) = seedKeys (insKey ks k) l := rfl
    rw [hstep, ih (insKey ks k) v, mem_keys_insKey]
    constructor
    · rintro ((hv | rfl) | hv)
      · exact Or.inl hv
      · exact Or.inr (List.mem_cons_self _ _)
      · exact Or.inr (List.mem_cons_of_mem _ hv)
    · rintro (hv | hv)
      · exact Or.inl (Or.inl hv)
      · rcases List.mem_cons.mp hv with rfl | hv
        · exact Or.inl (Or.inr rfl)
        · exact Or.inr hv

/-- Seeding preserves key uniqueness. -/
theorem nodup_keys_seedKeys (l : List String) :
    ∀ ks : List APIKey, (ks.map APIKey.key).Nodup →
      ((seedKeys ks l).map APIKey.key).Nodup := by
  induction l with
  | nil => intro ks h; exact h
  | cons k l ih =>
    intro ks h
    exact ih (insKey ks k) (nodup_keys_insKey ks k h)

/-- Seeding preserves the enabled, zero-failure shape of all records. -/
theorem seedKeys_fresh (l : List String) :
    ∀ ks : List APIKey, (∀ r ∈ ks, r.status = true ∧ r.failure_count = 0) →
      ∀ r ∈ seedKeys ks l, r.status = true ∧ r.failure_count = 0 := by
  induction l with
  | nil => intro ks h; exact h
  | cons k l ih =>
    intro ks h
    exact ih (insKey ks k) (insKey_fresh ks k h)

/-- Seeding with values that are all already present is a no-op. -/
theorem seedKeys_of_sub (l : List String) :
    ∀ ks : List APIKey, (∀ v ∈ l, v ∈ ks.map APIKey.key) →
      seedKeys ks l = ks := by
  induction l with
  | nil => intro ks _; rfl
  | cons k l ih =>
    intro ks h
    have hk : insKey ks k = ks := insKey_of_mem ks k (h k (List.mem_cons_self _ _))
    have hstep : seedKeys ks (k :: l) = seedKeys (insKey ks k) l := rfl
    rw [hstep, hk]
    exact ih ks fun v hv => h v (List.mem_cons_of_mem _ hv)

/-! Helper lemma about the streaming retry loop. -/

/-- The retry loop consults the attempt outcomes only at indices below
`maxRetries`. -/
theorem streamGo_congr (maxRetries : Nat) (retryDelay : ℚ)
    (att att2 : Nat → AttemptOutcome)
    (h : ∀ i, i < maxRetries → att i = att2 i) :
    ∀ remaining attempt, attempt + remaining ≤ maxRetries →
      streamGo maxRetries retryDelay att attempt remaining =
        streamGo maxRetries retryDelay att2 attempt remaining := by
  intro remaining
  induction remaining with
  | zero => intro attempt _; rfl
  | succ n ih =>
    intro attempt hle
    have ha : att attempt = att2 attempt := h attempt (by omega)
    simp only [streamGo, ha]
    cases att2 attempt with
    | success lines => rfl
    | fail err linesBefore =>
      by_cases hlast : attempt = maxRetries - 1
      · simp [hlast]
      · have hrec := ih (attempt + 1) (by omega)
        simp [hlast, hrec]

/-! Claims. -/

/-- C1: the claim says `get_next_key` returns the value of a currently
enabled credential and fails with PoolExhausted iff the enabled set is
empty.  On the code this fails: with one enabled credential in the store
(the enabled filter `whereStatusEqTrue` selects it), the call still raises
`No valid API keys available` and leaves the state untouched, because the
query's `APIKey.status is True` filter is constant false. -/
theorem C1_acquire_raises_despite_enabled_key :
    (({ keys := [{ key := "A" }] } : PoolState).keys.filter whereStatusEqTrue ≠ []) ∧
    get_next_key { keys := [{ key := "A" }] } =
      (.error .noValidKeys, { keys := [{ key := "A" }] }) :=
  ⟨by decide, get_next_key_always_errors _⟩

/-- C4: the claim says K sequential `get_next_key` calls over K enabled
credentials visit each enabled value exactly once in cyclic order.  On the
code, with two enabled credentials, both sequential calls raise and no
value is ever visited: the constant-false row filter makes every call
fail. -/
theorem C4_round_robin_visits_nothing :
    get_next_key { keys := [{ key := "K1" }, { key := "K2" }] } =
      (.error .noValidKeys, { keys := [{ key := "K1" }, { key := "K2" }] }) ∧
    get_next_key
        (get_next_key { keys := [{ key := "K1" }, { key := "K2" }] }).2 =
      (.error .noValidKeys, { keys := [{ key := "K1" }, { key := "K2" }] }) := by
  constructor <;> simp [get_next_key_always_errors]

/-- C9: the claim says the first `get_next_key` call after construction
(cursor 0) returns the second enabled credential when at least two are
enabled, because the cursor is incremented before indexing.  The
cursor-before-index description matches the intended filter (second
conjunct, on `get_next_key_intent`), but the code as written raises on
that very input instead of returning anything (first conjunct). -/
theorem C9_first_acquire_raises_not_second :
    get_next_key { keys := [{ key := "K1" }, { key := "K2" }] } =
      (.error .noValidKeys, { keys := [{ key := "K1" }, { key := "K2" }] }) ∧
    get_next_key_intent { keys := [{ key := "K1" }, { key := "K2" }] } =
      (.ok "K2",
        { keys := [{ key := "K1" }, { key := "K2" }], current_key_index := 1 }) :=
  ⟨get_next_key_always_errors _, rfl⟩

/-- C3: the claim says N failure reports with no intervening reset leave
`failure_count = N`, disabling exactly at MAX_FAILURES.  On the code even
one report against "A" (MAX_FAILURES = 3, fresh two-key pool) ends with
both counts at 0: the update section does increment the count to 1 (first
conjunct), but the `get_next_working_key` tail of `handle_api_failure`
always lands in its recovery path — the broken row filter makes the scan
raise — which resets every count and re-raises (second and third
conjuncts). -/
theorem C3_failure_count_wiped_by_internal_reset :
    handle_failure_update 3 { keys := [{ key := "A" }, { key := "B" }] } "A" =
      { keys := [{ key := "A", failure_count := 1 }, { key := "B" }] } ∧
    handle_api_failure 3 { keys := [{ key := "A" }, { key := "B" }] } "A" =
      (.error .noValidKeys, { keys := [{ key := "A" }, { key := "B" }] }) ∧
    ((handle_api_failure 3 { keys := [{ key := "A" }, { key := "B" }] } "A").2.keys.map
        APIKey.failure_count) = [0, 0] :=
  ⟨rfl, rfl, rfl⟩

/-- C5: the claim says `get_next_working_key` in the all-over-threshold
case resets all failures and then returns the next acquired value
unconditionally.  On the code, with every credential at MAX_FAILURES = 3,
the call does reset both records (the final state holds enabled records
with zero failures) but then raises `No valid API keys available` instead
of returning a value, because the post-reset `get_next_key` call fails on
its constant-false row filter exactly like the pre-reset ones. -/
theorem C5_exhaustion_recovery_raises :
    get_next_working_key 3
        { keys := [{ key := "A", failure_count := 3 },
                   { key := "B", failure_count := 3 }] } =
      (.error .noValidKeys, { keys := [{ key := "A" }, { key := "B" }] }) := rfl

/-- C2 counterexample: the claim says that once at least one line has been
yielded, a transport failure is never retried — no reconnection (hence no
backoff sleep) may follow a yielded line, and the sequence must end in a
terminal error.  False: for the attempt schedule that yields five lines
and then drops the connection on attempt 0 and succeeds on attempt 1, the
trace contains a backoff sleep after the yielded lines (the claimed
universal `noRetryAfterYield` property fails). -/
theorem C2_counterexample :
    ¬ ∀ (att : Nat → AttemptOutcome),
        noRetryAfterYield
          (stream_generate_content defaultMaxRetries defaultRetryDelay att).1 = true := by
  intro h
  have h5 := h fun i =>
    if i = 0 then
      .fail (.requestError "connection dropped") ["l1", "l2", "l3", "l4", "l5"]
    else
      .success ["l1", "l2", "l3", "l4", "l5", "l6"]
  revert h5
  decide

/-- C2 amended: a transport failure after lines have been yielded is
retried exactly like a pre-stream failure as long as it is not the last
attempt: the generator sleeps the exponential backoff and then delivers
the next attempt's lines after the already-delivered ones (replaying
content), finishing normally if that attempt succeeds; only a failure on
the final attempt surfaces as a terminal error on the sequence. -/
theorem C2_amended_partial_stream_is_retried :
    ∀ (err errLast : StreamErr) (lines1 lines2 : List String),
      lines1 ≠ [] →
      (stream_generate_content defaultMaxRetries defaultRetryDelay
          (fun i => if i = 0 then .fail err lines1 else .success lines2) =
        (lines1.map .yield ++
            .sleep (defaultRetryDelay * 2 ^ 0) :: lines2.map .yield,
          .ok ())) ∧
      (stream_generate_content defaultMaxRetries defaultRetryDelay
          (fun i => if i ≤ 1 then .fail err [] else .fail errLast lines1) =
        ([.sleep (defaultRetryDelay * 2 ^ 0), .sleep (defaultRetryDelay * 2 ^ 1)] ++
            lines1.map .yield,
          .error errLast)) :=
  fun _ _ _ _ _ => ⟨rfl, rfl⟩

/-- C2 amended witness: concrete instance — two lines delivered, the
connection drops, the client sleeps one base delay and replays the second
attempt, ending in normal completion. -/
theorem C2_amended_witness :
    stream_generate_content defaultMaxRetries defaultRetryDelay
        (fun i => if i = 0 then
            .fail (.requestError "connection reset") ["a", "b"]
          else
            .success ["c"]) =
      ((["a", "b"] : List String).map .yield ++
          .sleep (defaultRetryDelay * 2 ^ 0) :: (["c"] : List String).map .yield,
        .ok ()) :=
  (C2_amended_partial_stream_is_retried (.requestError "connection reset")
    (.requestError "unused") ["a", "b"] ["c"] (by decide)).1

/-- C7: a pre-stream failure on attempt i is followed by a sleep of
retry_delay * 2 ^ i; with the configured three attempts, two pre-stream
failures then a success produce exactly the two backoff sleeps
(base, 2 * base) followed by the third attempt's full line sequence; three
failures exhaust the loop with the last error as the terminal error; and
the loop never consults any attempt beyond the third. -/
theorem C7_stream_backoff_policy :
    (∀ (b : ℚ) (e0 e1 : StreamErr) (L : List String),
        stream_generate_content 3 b
            (fun i => if i = 0 then .fail e0 []
                      else if i = 1 then .fail e1 [] else .success L) =
          ([.sleep b, .sleep (b * 2)] ++ L.map .yield, .ok ())) ∧
    (∀ (b : ℚ) (e0 e1 e2 : StreamErr),
        stream_generate_content 3 b
            (fun i => if i = 0 then .fail e0 []
                      else if i = 1 then .fail e1 [] else .fail e2 []) =
          ([.sleep b, .sleep (b * 2)], .error e2)) ∧
    (∀ (b : ℚ) (att att2 : Nat → AttemptOutcome),
        (∀ i, i < 3 → att i = att2 i) →
        stream_generate_content 3 b att = stream_generate_content 3 b att2) := by
  refine ⟨?_, ?_, ?_⟩
  · intro b e0 e1 L
    have h : stream_generate_content 3 b
        (fun i => if i = 0 then .fail e0 []
                  else if i = 1 then .fail e1 [] else .success L) =
      ([.sleep (b * 2 ^ 0), .sleep (b * 2 ^ 1)] ++ L.map .yield, .ok ()) := rfl
    rw [h]
    norm_num
  · intro b e0 e1 e2
    have h : stream_generate_content 3 b
        (fun i => if i = 0 then .fail e0 []
                  else if i = 1 then .fail e1 [] else .fail e2 []) =
      ([.sleep (b * 2 ^ 0), .sleep (b * 2 ^ 1)], .error e2) := rfl
    rw [h]
    norm_num
  · intro b att att2 h
    exact streamGo_congr 3 b att att2 h 3 0 (by omega)

/-- C7 witness: the fail-fail-success scenario at base delay 1, and the
three-attempt locality applied to two schedules that agree on attempts
0, 1, 2. -/
theorem C7_witness :
    stream_generate_content 3 1
        (fun i => if i = 0 then .fail (.requestError "errA") []
                  else if i = 1 then .fail (.requestError "errB") []
                  else .success ["x", "y"]) =
      ([.sleep 1, .sleep (1 * 2)] ++ (["x", "y"] : List String).map .yield, .ok ()) ∧
    stream_generate_content 3 1 (fun _ => .success ["z"]) =
      stream_generate_content 3 1
        (fun i => if i < 3 then .success ["z"] else .fail (.requestError "late") []) :=
  ⟨C7_stream_backoff_policy.1 1 (.requestError "errA") (.requestError "errB")
      ["x", "y"],
    C7_stream_backoff_policy.2.2 1 _ _ (fun i hi => by simp [hi])⟩

/-- C6 counterexample: the claim says every store error inside a pool
operation (seeding conflicts apart) propagates to the caller uncaught,
converted into neither a reset nor a fallback.  False for
`get_next_working_key`: when its first store round trip raises, the call
neither re-raises the store error nor leaves the state alone — on a
two-credential store it ends with every failure count reset and a
different exception. -/
theorem C6_counterexample :
    ¬ ∀ (rest : ErrSched) (s : PoolState),
        get_next_working_keyE 3 (true :: rest) s = (.error .storeError, s, rest) := by
  intro h
  have hx := h [false, false]
    { keys := [{ key := "A", failure_count := 2 }, { key := "B", failure_count := 2 }] }
  have heval : get_next_working_keyE 3 (true :: [false, false])
      { keys := [{ key := "A", failure_count := 2 },
                 { key := "B", failure_count := 2 }] } =
      (.error .noValidKeys, { keys := [{ key := "A" }, { key := "B" }] }, []) := rfl
  have hbad := hx.symm.trans heval
  simp at hbad

/-- C6 amended: store errors raised by `get_next_key`, `is_key_valid` and
`reset_failure_counts` themselves propagate uncaught with the state
untouched (the last after being logged and re-raised); but
`get_next_working_key` catches every exception from its acquisition scan —
store errors included — and converts it into a `reset_failure_counts`
followed by one final `get_next_key`, so only an error arising in those
recovery steps propagates from it (here the final acquisition's own
failure, after the reset has been committed). -/
theorem C6_amended_error_propagation :
    (∀ (rest : ErrSched) (s : PoolState),
        get_next_keyE (true :: rest) s = (.error .storeError, s, rest)) ∧
    (∀ (rest : ErrSched) (s : PoolState),
        reset_failure_countsE (true :: rest) s = (.error .storeError, s, rest)) ∧
    (∀ (MAXF : Nat) (rest : ErrSched) (s : PoolState) (key : String),
        is_key_validE MAXF (true :: rest) s key = (.error .storeError, rest)) ∧
    (∀ s : PoolState,
        get_next_working_keyE 3 [true, false, false] s =
          (.error .noValidKeys, reset_failure_counts s, [])) := by
  refine ⟨fun rest s => rfl, fun rest s => rfl, fun MAXF rest s key => rfl, fun s => ?_⟩
  simp [get_next_working_keyE, get_next_keyE, reset_failure_countsE, takeStep,
    get_next_key_always_errors]

/-- C8: seeding is idempotent — initializing from the empty store with one
list and then a second, overlapping list commits without error; the
resulting records are exactly the union of the two value lists (each once,
all enabled with zero failures); re-running the first list changes
nothing; and a uniqueness-conflict commit is swallowed as success. -/
theorem C8_initialize_idempotent :
    (∀ l1 l2 : List String,
        initialize_keys { keys := [] } l1 .ok = .ok { keys := seedKeys [] l1 } ∧
        initialize_keys { keys := seedKeys [] l1 } l2 .ok =
          .ok { keys := seedKeys (seedKeys [] l1) l2 } ∧
        (∀ v, v ∈ (seedKeys (seedKeys [] l1) l2).map APIKey.key ↔
          v ∈ l1 ∨ v ∈ l2) ∧
        ((seedKeys (seedKeys [] l1) l2).map APIKey.key).Nodup ∧
        (∀ r ∈ seedKeys (seedKeys [] l1) l2,
          r.status = true ∧ r.failure_count = 0) ∧
        seedKeys (seedKeys [] l1) l1 = seedKeys [] l1) ∧
    (∀ (s : PoolState) (l : List String),
        initialize_keys s l .duplicateEntry = .ok s) := by
  constructor
  · intro l1 l2
    refine ⟨rfl, rfl, ?_, ?_, ?_, ?_⟩
    · intro v
      rw [mem_keys_seedKeys l2 (seedKeys [] l1) v, mem_keys_seedKeys l1 [] v]
      simp
    · exact nodup_keys_seedKeys l2 (seedKeys [] l1)
        (nodup_keys_seedKeys l1 [] (by simp))
    · exact seedKeys_fresh l2 (seedKeys [] l1)
        (seedKeys_fresh l1 [] (by simp))
    · exact seedKeys_of_sub l1 (seedKeys [] l1) fun v hv =>
        (mem_keys_seedKeys l1 [] v).mpr (Or.inr hv)
  · intro s l
    rfl

/-- C8 witness: overlapping seeds A,B then B,C — the shared value B is
present once, the record added for A is enabled with zero failures, and a
duplicate-entry commit returns success. -/
theorem C8_witness :
    "B" ∈ (seedKeys (seedKeys [] ["A", "B"]) ["B", "C"]).map APIKey.key ∧
    ({ key := "A" } : APIKey).status = true ∧
    initialize_keys { keys := [] } ["A", "B"] .duplicateEntry = .ok { keys := [] } :=
  ⟨((C8_initialize_idempotent.1 ["A", "B"] ["B", "C"]).2.2.1 "B").mpr
      (Or.inl (by decide)),
    ((C8_initialize_idempotent.1 ["A", "B"] ["B", "C"]).2.2.2.2.1
      { key := "A" } (by decide)).1,
    C8_initialize_idempotent.2 { keys := [] } ["A", "B"]⟩

/-- C10: with a non-empty configured paid key, `get_paid_key` returns that
value whatever the state of its record — no status or failure-count check —
ensuring a record for it exists (and leaving the store untouched when one
already does); with no paid key configured it falls back to
`get_next_working_key`. -/
theorem C10_paid_key_bypasses_pool :
    ∀ (MAXF : Nat) (pk : String) (s : PoolState),
      (pk ≠ "" →
        (get_paid_key MAXF pk s).1 = .ok pk ∧
        (get_paid_key MAXF pk s).2.keys.any (fun r => r.key == pk) = true ∧
        (s.keys.any (fun r => r.key == pk) = true →
          (get_paid_key MAXF pk s).2 = s)) ∧
      (pk = "" → get_paid_key MAXF pk s = get_next_working_key MAXF s) := by
  intro MAXF pk s
  constructor
  · intro hpk
    unfold get_paid_key
    rw [if_pos hpk]
    by_cases hmem : s.keys.any (fun r => r.key == pk) = true
    · simp [hmem]
    · refine ⟨rfl, ?_, fun hc => absurd hc hmem⟩
      simp [hmem, List.any_append]
  · intro hpk
    unfold get_paid_key
    rw [if_neg (by simp [hpk])]

/-- C10 witness: the configured paid key "paid" is returned even though its
record is disabled with 99 failures — the pool's validity check and
quarantine are bypassed. -/
theorem C10_witness :
    (get_paid_key 3 "paid"
        { keys := [{ key := "paid", status := false, failure_count := 99 }] }).1 =
      Except.ok "paid" :=
  ((C10_paid_key_bypasses_pool 3 "paid"
      { keys := [{ key := "paid", status := false, failure_count := 99 }] }).1
      (by decide)).1

end GeminiBalance
